import Mathlib

/-!
Verification of the you-chat Streaming Conversation Engine.

This file embeds, in Lean, the data model and operations of the you-chat
server (`src/server/routes/chat.ts`, `src/server/routes/sessions.ts`,
`src/server/db.ts`, `src/server/lib/you-client.ts`) and proves the
testable properties stated in the design document: the History
Reconstructor, the Persistence Coordinator's terminal-write discipline,
the Stream Registry and stop protocol, thread rebase on regeneration,
forking, and the wire encoding of the history context.
-/

/-- Message role; the `messages` table CHECKs `role IN ('user','assistant')`. -/
inductive Role where
  | user
  | assistant
deriving DecidableEq, Repr

/-- The projection of a message row consumed by `buildChatHistory`. -/
structure ChatMsg where
  role : Role
  content : String
deriving DecidableEq, Repr

/-- A (question, answer) turn pair, as produced by `buildChatHistory`. -/
structure QA where
  question : String
  answer : String
deriving DecidableEq, Repr

/-- The loop of `buildChatHistory` (chat.ts): the `pendingQuestion`
accumulator is threaded through the message list. A user message merges
into (or starts) the pending question; an assistant message closes it
into a pair, or is skipped when no question is pending. -/
def buildChatHistoryAux : Option String → List ChatMsg → List QA
  | _, [] => []
  | pending, m :: rest =>
    match m.role with
    | Role.user =>
      match pending with
      | some q => buildChatHistoryAux (some (q ++ "\n\n" ++ m.content)) rest
      | none => buildChatHistoryAux (some m.content) rest
    | Role.assistant =>
      match pending with
      | some q => ⟨q, m.content⟩ :: buildChatHistoryAux none rest
      | none => buildChatHistoryAux none rest

/-- `buildChatHistory` from chat.ts: build Q&A pairs resilient to gaps
from deleted messages; a trailing pending question is excluded. -/
def buildChatHistory (messages : List ChatMsg) : List QA :=
  buildChatHistoryAux none messages

/-- Specification-side count of locally complete user→assistant
exchanges: walking the role sequence, an assistant role completes an
exchange exactly when at least one user role has been seen since the
last completed exchange. -/
def completeExchanges : Bool → List Role → Nat
  | _, [] => 0
  | _, Role.user :: rest => completeExchanges true rest
  | pending, Role.assistant :: rest =>
    (if pending then 1 else 0) + completeExchanges false rest

theorem buildChatHistoryAux_length (messages : List ChatMsg) :
    ∀ pending : Option String,
      (buildChatHistoryAux pending messages).length
        = completeExchanges pending.isSome (messages.map ChatMsg.role) := by
  induction messages with
  | nil => intro pending; rfl
  | cons m rest ih =>
    intro pending
    cases hr : m.role with
    | user =>
      cases pending with
      | some q => simpa [buildChatHistoryAux, completeExchanges, hr] using ih _
      | none => simpa [buildChatHistoryAux, completeExchanges, hr] using ih _
    | assistant =>
      cases pending with
      | some q =>
        have := ih (none : Option String)
        simp only [buildChatHistoryAux, completeExchanges, hr, List.map_cons,
          List.length_cons, Option.isSome_some, Option.isSome_none, if_true] at this ⊢
        omega
      | none => simpa [buildChatHistoryAux, completeExchanges, hr] using ih _

theorem append_sep_ne_empty (q c : String) : q ++ "\n\n" ++ c ≠ "" := by
  intro h
  have hl := congrArg String.length h
  have hsep : ("\n\n" : String).length = 2 := rfl
  simp only [String.length_append, String.length_empty] at hl
  omega

theorem buildChatHistoryAux_question_ne_empty (messages : List ChatMsg) :
    ∀ pending : Option String,
      (∀ m ∈ messages, m.role = Role.user → m.content ≠ "") →
      (∀ q, pending = some q → q ≠ "") →
      ∀ p ∈ buildChatHistoryAux pending messages, p.question ≠ "" := by
  induction messages with
  | nil => intro pending _ _ p hp; simp [buildChatHistoryAux] at hp
  | cons m rest ih =>
    intro pending huser hpend p hp
    have husertail : ∀ m' ∈ rest, m'.role = Role.user → m'.content ≠ "" := by
      intro m' hm' hr'
      exact huser m' (List.mem_cons_of_mem _ hm') hr'
    cases hr : m.role with
    | user =>
      cases pending with
      | some q =>
        rw [buildChatHistoryAux, hr] at hp
        exact ih _ husertail (by
          intro q' hq'
          rw [Option.some.injEq] at hq'
          rw [← hq']
          exact append_sep_ne_empty q m.content) p hp
      | none =>
        rw [buildChatHistoryAux, hr] at hp
        exact ih _ husertail (by
          intro q' hq'
          rw [Option.some.injEq] at hq'
          rw [← hq']
          exact huser m (List.mem_cons_self _ _) hr) p hp
    | assistant =>
      cases pending with
      | some q =>
        rw [buildChatHistoryAux, hr] at hp
        rcases List.mem_cons.mp hp with h | h
        · rw [h]
          exact hpend q rfl
        · exact ih _ husertail (by intro q' hq'; cases hq') p h
      | none =>
        rw [buildChatHistoryAux, hr] at hp
        exact ih _ husertail (by intro q' hq'; cases hq') p hp

theorem buildChatHistoryAux_answer_from_assistant (messages : List ChatMsg) :
    ∀ pending : Option String, ∀ p ∈ buildChatHistoryAux pending messages,
      ∃ m ∈ messages, m.role = Role.assistant ∧ m.content = p.answer := by
  induction messages with
  | nil => intro pending p hp; simp [buildChatHistoryAux] at hp
  | cons m rest ih =>
    intro pending p hp
    cases hr : m.role with
    | user =>
      cases pending with
      | some q =>
        rw [buildChatHistoryAux, hr] at hp
        obtain ⟨m', hm', hprop⟩ := ih _ p hp
        exact ⟨m', List.mem_cons_of_mem _ hm', hprop⟩
      | none =>
        rw [buildChatHistoryAux, hr] at hp
        obtain ⟨m', hm', hprop⟩ := ih _ p hp
        exact ⟨m', List.mem_cons_of_mem _ hm', hprop⟩
    | assistant =>
      cases pending with
      | some q =>
        rw [buildChatHistoryAux, hr] at hp
        rcases List.mem_cons.mp hp with h | h
        · exact ⟨m, List.mem_cons_self _ _, hr, by rw [h]⟩
        · obtain ⟨m', hm', hprop⟩ := ih _ p h
          exact ⟨m', List.mem_cons_of_mem _ hm', hprop⟩
      | none =>
        rw [buildChatHistoryAux, hr] at hp
        obtain ⟨m', hm', hprop⟩ := ih _ p hp
        exact ⟨m', List.mem_cons_of_mem _ hm', hprop⟩

/-- C3: the History Reconstructor follows the pending-question algorithm;
on any message list whose user messages are non-empty it never emits a
pair with an empty question, every answer is the content of an assistant
message of the list, and the number of returned pairs equals the number
of locally complete user→assistant exchanges. -/
theorem buildChatHistory_pending_question_law
    (messages : List ChatMsg)
    (huser : ∀ m ∈ messages, m.role = Role.user → m.content ≠ "") :
    (∀ p ∈ buildChatHistory messages,
        p.question ≠ "" ∧
        ∃ m ∈ messages, m.role = Role.assistant ∧ m.content = p.answer) ∧
    (buildChatHistory messages).length
      = completeExchanges false (messages.map ChatMsg.role) := by
  constructor
  · intro p hp
    constructor
    · exact buildChatHistoryAux_question_ne_empty messages none huser
        (by intro q hq; cases hq) p hp
    · exact buildChatHistoryAux_answer_from_assistant messages none p hp
  · exact buildChatHistoryAux_length messages none

/-- A concrete history with a gap: two consecutive user messages (their
assistant reply was deleted), then two assistant messages (the second is
orphaned), then a trailing user message. -/
def demoMessages : List ChatMsg :=
  [⟨Role.user, "a"⟩, ⟨Role.user, "b"⟩, ⟨Role.assistant, "x"⟩,
   ⟨Role.assistant, "y"⟩, ⟨Role.user, "c"⟩]

theorem buildChatHistory_pending_question_law_witness :
    (∀ m ∈ demoMessages, m.role = Role.user → m.content ≠ "") ∧
    ((∀ p ∈ buildChatHistory demoMessages,
        p.question ≠ "" ∧
        ∃ m ∈ demoMessages, m.role = Role.assistant ∧ m.content = p.answer) ∧
     (buildChatHistory demoMessages).length
       = completeExchanges false (demoMessages.map ChatMsg.role)) :=
  ⟨by decide, buildChatHistory_pending_question_law demoMessages (by decide)⟩

/-- Message lifecycle status. The `messages` table defaults the column to
`complete`; `createStreamingMessage` inserts with `streaming`. -/
inductive MsgStatus where
  | streaming
  | complete
deriving DecidableEq, Repr

/-- Semantic events yielded by `streamChat` (you-client.ts): status
("thinking") updates, text tokens, and end-of-turn. -/
inductive StreamEvent where
  | thinking (message : String)
  | token (text : String)
  | done
deriving DecidableEq, Repr

/-- Observable effects of one generation attempt, in order of occurrence:
`snapshot` is an `updateStreamingContent` write, `deliver` is an attempt
to push an event to the live client (`ok` records whether the client was
still there; a failure is swallowed), `terminal` is the final
`completeStreamingMessage` write. -/
inductive StreamEff where
  | snapshot (content : String)
  | deliver (e : StreamEvent) (ok : Bool)
  | terminal (content : String)
deriving DecidableEq, Repr

def SAVE_INTERVAL_MS : Nat := 1000

/-- The for-await loop of `streamAndSave` (chat.ts), processing events in
order with index `i`, accumulated text `acc` and `lastSave` time: the
abort signal is checked before each event (`break` on abort); a token
event grows the accumulator and snapshots it at most once per save
interval; delivery of every event is attempted afterwards, with delivery
failure swallowed. `aborted i` is the value of `abortSignal.aborted` when
event `i` is processed, `times i` is `Date.now()` then, and `failDeliver
i` says whether pushing event `i` to the client throws. Returns the
effect trace, the final accumulator, and whether the loop broke early on
abort. -/
def streamLoop (aborted : Nat → Bool) (times : Nat → Nat)
    (failDeliver : Nat → Bool) :
    Nat → String → Nat → List StreamEvent → List StreamEff × String × Bool
  | _, acc, _, [] => ([], acc, false)
  | i, acc, lastSave, e :: rest =>
    if aborted i then ([], acc, true)
    else
      match e with
      | StreamEvent.token t =>
        let acc' := acc ++ t
        if times i - lastSave > SAVE_INTERVAL_MS then
          let r := streamLoop aborted times failDeliver (i + 1) acc' (times i) rest
          (StreamEff.snapshot acc' :: StreamEff.deliver e (!failDeliver i) :: r.1, r.2)
        else
          let r := streamLoop aborted times failDeliver (i + 1) acc' lastSave rest
          (StreamEff.deliver e (!failDeliver i) :: r.1, r.2)
      | StreamEvent.thinking msg =>
        let r := streamLoop aborted times failDeliver (i + 1) acc lastSave rest
        (StreamEff.deliver (StreamEvent.thinking msg) (!failDeliver i) :: r.1, r.2)
      | StreamEvent.done =>
        let r := streamLoop aborted times failDeliver (i + 1) acc lastSave rest
        (StreamEff.deliver StreamEvent.done (!failDeliver i) :: r.1, r.2)

theorem streamLoop_nil (aborted : Nat → Bool) (times : Nat → Nat)
    (failDeliver : Nat → Bool) (i : Nat) (acc : String) (lastSave : Nat) :
    streamLoop aborted times failDeliver i acc lastSave [] = ([], acc, false) := by
  rw [streamLoop.eq_def]

theorem streamLoop_cons_aborted (aborted : Nat → Bool) (times : Nat → Nat)
    (failDeliver : Nat → Bool) (i : Nat) (acc : String) (lastSave : Nat)
    (e : StreamEvent) (rest : List StreamEvent) (h : aborted i = true) :
    streamLoop aborted times failDeliver i acc lastSave (e :: rest)
      = ([], acc, true) := by
  rw [streamLoop.eq_def]
  simp [h]

theorem streamLoop_cons_token_snap (aborted : Nat → Bool) (times : Nat → Nat)
    (failDeliver : Nat → Bool) (i : Nat) (acc : String) (lastSave : Nat)
    (t : String) (rest : List StreamEvent) (h : aborted i = false)
    (hs : times i - lastSave > SAVE_INTERVAL_MS) :
    streamLoop aborted times failDeliver i acc lastSave
        (StreamEvent.token t :: rest)
      = (StreamEff.snapshot (acc ++ t)
          :: StreamEff.deliver (StreamEvent.token t) (!failDeliver i)
          :: (streamLoop aborted times failDeliver (i + 1) (acc ++ t)
                (times i) rest).1,
         (streamLoop aborted times failDeliver (i + 1) (acc ++ t)
            (times i) rest).2) := by
  rw [streamLoop.eq_def]
  simp [h, hs]

theorem streamLoop_cons_token_nosnap (aborted : Nat → Bool) (times : Nat → Nat)
    (failDeliver : Nat → Bool) (i : Nat) (acc : String) (lastSave : Nat)
    (t : String) (rest : List StreamEvent) (h : aborted i = false)
    (hs : ¬ times i - lastSave > SAVE_INTERVAL_MS) :
    streamLoop aborted times failDeliver i acc lastSave
        (StreamEvent.token t :: rest)
      = (StreamEff.deliver (StreamEvent.token t) (!failDeliver i)
          :: (streamLoop aborted times failDeliver (i + 1) (acc ++ t)
                lastSave rest).1,
         (streamLoop aborted times failDeliver (i + 1) (acc ++ t)
            lastSave rest).2) := by
  rw [streamLoop.eq_def]
  simp [h, hs]

theorem streamLoop_cons_thinking (aborted : Nat → Bool) (times : Nat → Nat)
    (failDeliver : Nat → Bool) (i : Nat) (acc : String) (lastSave : Nat)
    (msg : String) (rest : List StreamEvent) (h : aborted i = false) :
    streamLoop aborted times failDeliver i acc lastSave
        (StreamEvent.thinking msg :: rest)
      = (StreamEff.deliver (StreamEvent.thinking msg) (!failDeliver i)
          :: (streamLoop aborted times failDeliver (i + 1) acc
                lastSave rest).1,
         (streamLoop aborted times failDeliver (i + 1) acc lastSave rest).2) := by
  rw [streamLoop.eq_def]
  simp [h]

theorem streamLoop_cons_done (aborted : Nat → Bool) (times : Nat → Nat)
    (failDeliver : Nat → Bool) (i : Nat) (acc : String) (lastSave : Nat)
    (rest : List StreamEvent) (h : aborted i = false) :
    streamLoop aborted times failDeliver i acc lastSave
        (StreamEvent.done :: rest)
      = (StreamEff.deliver StreamEvent.done (!failDeliver i)
          :: (streamLoop aborted times failDeliver (i + 1) acc
                lastSave rest).1,
         (streamLoop aborted times failDeliver (i + 1) acc lastSave rest).2) := by
  rw [streamLoop.eq_def]
  simp [h]

structure StreamRunResult where
  effects : List StreamEff
  text : String
  errored : Bool
deriving DecidableEq, Repr

/-- `streamAndSave` (chat.ts): the event loop wrapped in try/finally; the
finally block always runs the terminal `completeStreamingMessage` write
with whatever text accumulated. `errAfter` models `streamChat` raising a
transport error after yielding `events` (a non-2xx response is the case
`events = []`); the error propagates to the caller only when the loop
was not already broken by the abort signal. `t0` is the initial
`lastSaveTime`. -/
def streamAndSave (events : List StreamEvent) (errAfter : Bool)
    (aborted : Nat → Bool) (times : Nat → Nat) (t0 : Nat)
    (failDeliver : Nat → Bool) : StreamRunResult :=
  let r := streamLoop aborted times failDeliver 0 "" t0 events
  { effects := r.1 ++ [StreamEff.terminal r.2.1]
    text := r.2.1
    errored := errAfter && !r.2.2 }

def StreamEff.isTerminal : StreamEff → Bool
  | StreamEff.terminal _ => true
  | _ => false

def StreamEff.isDeliver : StreamEff → Bool
  | StreamEff.deliver _ _ => true
  | _ => false

/-- Replays an effect trace onto a message row's (content, status),
following db.ts: `updateStreamingContent` writes content only,
`completeStreamingMessage` writes content and sets status `complete`,
delivery touches nothing. -/
def applyStreamEff (m : String × MsgStatus) : StreamEff → String × MsgStatus
  | StreamEff.snapshot c => (c, m.2)
  | StreamEff.deliver _ _ => m
  | StreamEff.terminal c => (c, MsgStatus.complete)

def applyStreamEffs (m : String × MsgStatus) (effs : List StreamEff) :
    String × MsgStatus :=
  effs.foldl applyStreamEff m

theorem streamLoop_no_terminal (aborted : Nat → Bool) (times : Nat → Nat)
    (failDeliver : Nat → Bool) (events : List StreamEvent) :
    ∀ i acc lastSave,
      ∀ e ∈ (streamLoop aborted times failDeliver i acc lastSave events).1,
        e.isTerminal = false := by
  induction events with
  | nil =>
    intro i acc lastSave e he
    rw [streamLoop_nil] at he
    simp at he
  | cons ev rest ih =>
    intro i acc lastSave e he
    by_cases hab : aborted i
    · rw [streamLoop_cons_aborted _ _ _ _ _ _ _ _ hab] at he
      simp at he
    · rw [Bool.not_eq_true] at hab
      cases ev with
      | token t =>
        by_cases hsnap : times i - lastSave > SAVE_INTERVAL_MS
        · rw [streamLoop_cons_token_snap _ _ _ _ _ _ _ _ hab hsnap] at he
          rcases List.mem_cons.mp he with h | h
          · rw [h]; rfl
          · rcases List.mem_cons.mp h with h' | h'
            · rw [h']; rfl
            · exact ih _ _ _ e h'
        · rw [streamLoop_cons_token_nosnap _ _ _ _ _ _ _ _ hab hsnap] at he
          rcases List.mem_cons.mp he with h | h
          · rw [h]; rfl
          · exact ih _ _ _ e h
      | thinking msg =>
        rw [streamLoop_cons_thinking _ _ _ _ _ _ _ _ hab] at he
        rcases List.mem_cons.mp he with h | h
        · rw [h]; rfl
        · exact ih _ _ _ e h
      | done =>
        rw [streamLoop_cons_done _ _ _ _ _ _ _ hab] at he
        rcases List.mem_cons.mp he with h | h
        · rw [h]; rfl
        · exact ih _ _ _ e h

/-- C1: every generation attempt performs exactly one terminal
persistence write, it is the last effect of the attempt, its content is
the accumulated text, and replaying the attempt's effects onto the
freshly created streaming message always ends with status `complete` —
on natural end-of-sequence (`errAfter = false`, no abort), on explicit
stop (any `aborted`), and on transport error (`errAfter = true`). -/
theorem streamAndSave_exactly_one_terminal_write
    (events : List StreamEvent) (errAfter : Bool) (aborted : Nat → Bool)
    (times : Nat → Nat) (t0 : Nat) (failDeliver : Nat → Bool) :
    (streamAndSave events errAfter aborted times t0 failDeliver).effects.filter
        StreamEff.isTerminal
      = [StreamEff.terminal
          (streamAndSave events errAfter aborted times t0 failDeliver).text] ∧
    (streamAndSave events errAfter aborted times t0 failDeliver).effects.getLast?
      = some (StreamEff.terminal
          (streamAndSave events errAfter aborted times t0 failDeliver).text) ∧
    applyStreamEffs ("", MsgStatus.streaming)
        (streamAndSave events errAfter aborted times t0 failDeliver).effects
      = ((streamAndSave events errAfter aborted times t0 failDeliver).text,
          MsgStatus.complete) := by
  refine ⟨?_, ?_, ?_⟩
  · rw [streamAndSave]
    simp only [List.filter_append]
    rw [List.filter_eq_nil_iff.mpr (by
      intro e he
      simp [streamLoop_no_terminal aborted times failDeliver events 0 "" t0 e he])]
    rfl
  · rw [streamAndSave]
    simp [List.getLast?_append]
  · rw [streamAndSave]
    simp only [applyStreamEffs, List.foldl_append]
    rfl

/-- A row of the `messages` table (db.ts schema: id, session_id, role,
content, created_at, status with default `complete`). -/
structure MsgRow where
  id : String
  session_id : String
  role : Role
  content : String
  created_at : Nat
  status : MsgStatus
deriving DecidableEq, Repr

/-- A row of the `chat_sessions` table; `you_chat_id` is the nullable
remote thread handle added by migration. -/
structure SessRow where
  id : String
  user_id : String
  title : String
  agent : String
  you_chat_id : Option String
  created_at : Nat
  updated_at : Nat
deriving DecidableEq, Repr

/-- The chat-related state of the SQLite store. -/
structure Db where
  sessions : List SessRow
  messages : List MsgRow
deriving DecidableEq, Repr

/-- Stable insertion of a message row into a list sorted by `created_at`
(equal keys keep their relative order). -/
def insertByCreatedAt (m : MsgRow) : List MsgRow → List MsgRow
  | [] => [m]
  | x :: rest =>
    if m.created_at ≤ x.created_at then m :: x :: rest
    else x :: insertByCreatedAt m rest

/-- `ORDER BY created_at ASC` as a stable sort. -/
def sortByCreatedAt (l : List MsgRow) : List MsgRow :=
  l.foldr insertByCreatedAt []

/-- `getChatSession` (db.ts): `SELECT * FROM chat_sessions WHERE id = ?
AND user_id = ?`. -/
def getChatSession (db : Db) (id userId : String) : Option SessRow :=
  db.sessions.find? (fun s => s.id == id && s.user_id == userId)

/-- `createChatSession` (db.ts): inserts a session row; `you_chat_id` is
not among the inserted columns, so it is NULL. -/
def createChatSession (db : Db) (userId title agent id : String) (now : Nat) :
    Db × SessRow :=
  let row : SessRow := ⟨id, userId, title, agent, none, now, now⟩
  (⟨db.sessions ++ [row], db.messages⟩, row)

/-- `getMessages` (db.ts): messages of a session ordered by `created_at`. -/
def getMessages (db : Db) (sessionId : String) : List MsgRow :=
  sortByCreatedAt (db.messages.filter (fun m => m.session_id == sessionId))

/-- Touch `updated_at` of one session (`UPDATE chat_sessions SET
updated_at = ? WHERE id = ?`). -/
def touchSession (db : Db) (sessionId : String) (now : Nat) : Db :=
  ⟨db.sessions.map (fun s =>
      if s.id == sessionId then { s with updated_at := now } else s),
   db.messages⟩

/-- `createMessage` (db.ts): inserts a row without a status column, so the
status defaults to `complete`; also touches the session's `updated_at`. -/
def createMessage (db : Db) (sessionId : String) (role : Role)
    (content : String) (id : String) (now : Nat) : Db :=
  let db' : Db :=
    ⟨db.sessions, db.messages ++ [⟨id, sessionId, role, content, now, MsgStatus.complete⟩]⟩
  touchSession db' sessionId now

/-- `createStreamingMessage` (db.ts): inserts a row with empty content and
status `streaming`; also touches the session's `updated_at`. -/
def createStreamingMessage (db : Db) (sessionId : String) (role : Role)
    (id : String) (now : Nat) : Db :=
  let db' : Db :=
    ⟨db.sessions, db.messages ++ [⟨id, sessionId, role, "", now, MsgStatus.streaming⟩]⟩
  touchSession db' sessionId now

/-- `updateStreamingContent` (db.ts): `UPDATE messages SET content = ?
WHERE id = ?`. -/
def updateStreamingContent (db : Db) (messageId content : String) : Db :=
  ⟨db.sessions,
   db.messages.map (fun m =>
     if m.id == messageId then { m with content := content } else m)⟩

/-- `completeStreamingMessage` (db.ts): `UPDATE messages SET content = ?,
status = 'complete' WHERE id = ?`. -/
def completeStreamingMessage (db : Db) (messageId content : String) : Db :=
  ⟨db.sessions,
   db.messages.map (fun m =>
     if m.id == messageId then
       { m with content := content, status := MsgStatus.complete }
     else m)⟩

/-- `updateMessage` (db.ts): `UPDATE messages SET content = ? WHERE id = ?
AND session_id = ?`. -/
def updateMessage (db : Db) (messageId sessionId content : String) : Db :=
  ⟨db.sessions,
   db.messages.map (fun m =>
     if m.id == messageId && m.session_id == sessionId then
       { m with content := content }
     else m)⟩

/-- `deleteMessage` (db.ts): `DELETE FROM messages WHERE id = ? AND
session_id = ?`. -/
def deleteMessage (db : Db) (messageId sessionId : String) : Db :=
  ⟨db.sessions,
   db.messages.filter (fun m =>
     !(m.id == messageId && m.session_id == sessionId))⟩

/-- `getMessage` (db.ts) restricted to a session: `SELECT * FROM messages
WHERE id = ? AND session_id = ?`. -/
def getMessage (db : Db) (messageId sessionId : String) : Option MsgRow :=
  db.messages.find? (fun m => m.id == messageId && m.session_id == sessionId)

/-- The row-deletion predicate of `deleteMessagesAfter` (db.ts): same
session and either a strictly later `created_at`, or the same
`created_at` with a different id. -/
def deleteAfterPred (sessionId : String) (t : Nat) (messageId : String)
    (m : MsgRow) : Bool :=
  m.session_id == sessionId
    && (t < m.created_at || (m.created_at == t && m.id != messageId))

/-- `deleteMessagesAfter` (db.ts): looks up the target's `created_at`; if
the target is absent returns 0 and changes nothing; otherwise deletes the
rows matched by `deleteAfterPred` and returns how many were deleted. -/
def deleteMessagesAfter (db : Db) (messageId sessionId : String) : Db × Nat :=
  match getMessage db messageId sessionId with
  | none => (db, 0)
  | some msg =>
    let survivors := db.messages.filter
      (fun m => !deleteAfterPred sessionId msg.created_at messageId m)
    (⟨db.sessions, survivors⟩, db.messages.length - survivors.length)

/-- `updateSessionYouChatId` (db.ts): `UPDATE chat_sessions SET
you_chat_id = ? WHERE id = ?`. -/
def updateSessionYouChatId (db : Db) (sessionId : String)
    (youChatId : Option String) : Db :=
  ⟨db.sessions.map (fun s =>
     if s.id == sessionId then { s with you_chat_id := youChatId } else s),
   db.messages⟩

/-- `getSessionYouChatId` (db.ts): `row?.you_chat_id || null` — both a
missing row, a NULL column and an empty-string column give null. -/
def getSessionYouChatId (db : Db) (sessionId : String) : Option String :=
  match db.sessions.find? (fun s => s.id == sessionId) with
  | none => none
  | some s =>
    match s.you_chat_id with
    | none => none
    | some y => if y == "" then none else some y

/-- The message-copy predicate of `forkSession` (db.ts): strictly earlier
`created_at`, or equal `created_at` with `id <= upToMessageId` (SQLite
TEXT comparison, i.e. lexicographic). -/
def forkCopyPred (sourceSessionId : String) (t : Nat) (upToMessageId : String)
    (m : MsgRow) : Bool :=
  m.session_id == sourceSessionId
    && (m.created_at < t || (m.created_at == t && m.id ≤ upToMessageId))

/-- `forkSession` (db.ts): resolve the source session and the fork-point
message; create a brand-new session (whose `you_chat_id` is NULL) titled
"(fork)"; copy the rows matched by `forkCopyPred`, ordered by
`created_at`, into the new session with fresh ids and no status column
(hence status `complete`). The source session row and its messages are
not written. `freshIds n` supplies the generated id of the n-th copy. -/
def forkSession (db : Db) (sourceSessionId userId upToMessageId : String)
    (newSessionId : String) (freshIds : Nat → String) (now : Nat) :
    Option (Db × SessRow × Nat) :=
  match getChatSession db sourceSessionId userId with
  | none => none
  | some source =>
    match getMessage db upToMessageId sourceSessionId with
    | none => none
    | some targetMsg =>
      let created := createChatSession db userId (source.title ++ " (fork)")
        source.agent newSessionId now
      let messagesToCopy := sortByCreatedAt (db.messages.filter
        (forkCopyPred sourceSessionId targetMsg.created_at upToMessageId))
      let copies := messagesToCopy.enum.map (fun p =>
        ({ id := freshIds p.1, session_id := newSessionId, role := p.2.role,
           content := p.2.content, created_at := p.2.created_at,
           status := MsgStatus.complete } : MsgRow))
      some (⟨created.1.sessions, created.1.messages ++ copies⟩,
        created.2, messagesToCopy.length)

/-- The Stream Registry (`activeStreams` in chat.ts): the set of
conversation ids with an in-flight generation. `Map.set`. -/
def activeStreamsSet (reg : List String) (sessionId : String) : List String :=
  if sessionId ∈ reg then reg else sessionId :: reg

/-- `Map.delete` on the Stream Registry. -/
def activeStreamsDelete (reg : List String) (sessionId : String) : List String :=
  reg.filter (fun x => x != sessionId)

structure StopOutcome where
  registry : List String
  didAbort : Bool
  stopped : Bool
deriving DecidableEq, Repr

/-- The `/stop` route (chat.ts): look up the conversation's controller in
the Stream Registry; if present, signal abort and remove the entry;
always answer `{ stopped: true }`. -/
def stopRoute (reg : List String) (sessionId : String) : StopOutcome :=
  if sessionId ∈ reg then
    ⟨activeStreamsDelete reg sessionId, true, true⟩
  else
    ⟨reg, false, true⟩

/-- C7: after a stop request the Stream Registry holds no entry for that
conversation and the response acknowledges success; a second stop for the
same conversation, or a stop arriving after natural completion already
removed the registry entry (the route's `finally` block), changes
nothing, signals no abort, and still answers `{ stopped: true }`. -/
theorem stopRoute_clears_and_idempotent (reg : List String) (sid : String) :
    sid ∉ (stopRoute reg sid).registry ∧
    (stopRoute reg sid).stopped = true ∧
    stopRoute (stopRoute reg sid).registry sid
      = ⟨(stopRoute reg sid).registry, false, true⟩ ∧
    stopRoute (activeStreamsDelete reg sid) sid
      = ⟨activeStreamsDelete reg sid, false, true⟩ := by
  have hdel : sid ∉ activeStreamsDelete reg sid := by
    simp [activeStreamsDelete]
  by_cases h : sid ∈ reg
  · refine ⟨by simp [stopRoute, h, hdel], by simp [stopRoute, h], ?_, ?_⟩
    · simp [stopRoute, h, hdel]
    · simp [stopRoute, hdel]
  · refine ⟨by simp [stopRoute, h], by simp [stopRoute, h], ?_, ?_⟩
    · simp [stopRoute, h]
    · simp [stopRoute, hdel]

/-- Whether a message row is a streaming message of conversation `sid`. -/
def isStreamingIn (sid : String) (m : MsgRow) : Bool :=
  match m.status with
  | MsgStatus.streaming => m.session_id == sid
  | MsgStatus.complete => false

/-- Number of messages of conversation `sid` currently in `streaming`
status. -/
def countStreaming (db : Db) (sid : String) : Nat :=
  db.messages.countP (isStreamingIn sid)

theorem countP_map_eq_of_pointwise {α : Type} (l : List α) (f : α → α)
    (p : α → Bool) (h : ∀ a, p (f a) = p a) :
    (l.map f).countP p = l.countP p := by
  induction l with
  | nil => rfl
  | cons a t ih => simp [List.countP_cons, h, ih]

theorem countP_map_le_of_pointwise {α : Type} (l : List α) (f : α → α)
    (p : α → Bool) (h : ∀ a, p (f a) = true → p a = true) :
    (l.map f).countP p ≤ l.countP p := by
  induction l with
  | nil => exact le_refl _
  | cons a t ih =>
    simp only [List.map_cons, List.countP_cons]
    have hzero : (if false = true then (1 : Nat) else 0) = 0 := rfl
    have hone : (if true = true then (1 : Nat) else 0) = 1 := rfl
    by_cases hfa : p (f a) = true
    · rw [hfa, h a hfa, hone]
      omega
    · rw [Bool.not_eq_true] at hfa
      rw [hfa, hzero]
      by_cases hpa : p a = true
      · rw [hpa, hone]; omega
      · rw [Bool.not_eq_true] at hpa; rw [hpa, hzero]; omega

theorem countP_filter_le {α : Type} (l : List α) (q p : α → Bool) :
    (l.filter q).countP p ≤ l.countP p := by
  induction l with
  | nil => exact le_refl _
  | cons a t ih =>
    simp only [List.filter_cons, List.countP_cons]
    by_cases hqa : q a = true
    · rw [if_pos hqa]
      simp only [List.countP_cons]
      omega
    · rw [Bool.not_eq_true] at hqa
      rw [hqa]
      have hred : (if false = true then a :: List.filter q t else List.filter q t)
          = List.filter q t := rfl
      rw [hred]
      omega

/-- The start of a generation attempt in `chat.post("/")` (chat.ts,
after validation): save the user message as `complete`, build the turn
pairs from the ordered history minus the just-saved query, resolve or
mint the conversation's You.com thread id, create the assistant message
in `streaming` status, and register the conversation's abort controller
in the Stream Registry. No step checks whether a generation is already
active for the conversation. -/
structure ChatStartResult where
  db : Db
  registry : List String
  youChatId : String
  chatHistory : List QA

def chatRouteStart (db : Db) (reg : List String)
    (sessionId message userMsgId asstMsgId freshYouId : String)
    (now : Nat) : ChatStartResult :=
  let db1 := createMessage db sessionId Role.user message userMsgId now
  let allMessages := getMessages db1 sessionId
  let historyMessages := allMessages.dropLast
  let chatHistory := buildChatHistory
    (historyMessages.map (fun m => ⟨m.role, m.content⟩))
  let resolved : Db × String :=
    match getSessionYouChatId db1 sessionId with
    | some y => (db1, y)
    | none => (updateSessionYouChatId db1 sessionId (some freshYouId), freshYouId)
  let db2 := createStreamingMessage resolved.1 sessionId Role.assistant asstMsgId now
  ⟨db2, activeStreamsSet reg sessionId, resolved.2, chatHistory⟩

def dbSingleSession : Db :=
  ⟨[⟨"s1", "u1", "untitled", "express", none, 0, 0⟩], []⟩

def startOnce : ChatStartResult :=
  chatRouteStart dbSingleSession [] "s1" "hi" "m1" "m2" "y1" 5

def startTwice : ChatStartResult :=
  chatRouteStart startOnce.db startOnce.registry "s1" "again" "m3" "m4" "y2" 6

/-- C5 counterexample: nothing stops a second generation from starting
while one is active — after one `chat.post("/")` the conversation has one
streaming message, and a second `chat.post("/")` before the first
attempt's terminal write leaves the conversation with two messages in
`streaming` status at once. -/
theorem second_generation_two_streaming_counterexample :
    countStreaming startOnce.db "s1" = 1 ∧
    countStreaming startTwice.db "s1" = 2 := by
  constructor
  · rfl
  · rfl

/-- Fork preserves the streaming invariant of every conversation: copied
rows are inserted without a status column, hence `complete`. -/
def forkPreservesStreaming (db : Db) (sid src uid upTo newSid : String)
    (fresh : Nat → String) (now : Nat) : Prop :=
  match forkSession db src uid upTo newSid fresh now with
  | none => True
  | some r => countStreaming r.1 sid ≤ 1

/-- C5 (amended): user messages are created `complete` and assistant
messages `streaming` (definitional in `createMessage` /
`createStreamingMessage`); every store operation other than starting a
generation preserves "at most one streaming message per conversation";
starting a generation adds exactly one streaming message to the
conversation, so the invariant is preserved exactly when no generation
was active — the code itself has no such guard. -/
theorem streaming_invariant_preservation
    (db : Db) (sid : String) (hinv : countStreaming db sid ≤ 1)
    (sid2 content id mid src uid upTo newSid : String)
    (roleArg : Role) (fresh : Nat → String) (now : Nat) :
    countStreaming (createMessage db sid2 roleArg content id now) sid ≤ 1 ∧
    countStreaming (updateStreamingContent db mid content) sid
      = countStreaming db sid ∧
    countStreaming (completeStreamingMessage db mid content) sid ≤ 1 ∧
    countStreaming (updateMessage db mid sid2 content) sid
      = countStreaming db sid ∧
    countStreaming (deleteMessage db mid sid2) sid ≤ 1 ∧
    countStreaming (deleteMessagesAfter db mid sid2).1 sid ≤ 1 ∧
    forkPreservesStreaming db sid src uid upTo newSid fresh now ∧
    countStreaming (createStreamingMessage db sid roleArg id now) sid
      = countStreaming db sid + 1 := by
  refine ⟨?_, ?_, ?_, ?_, ?_, ?_, ?_, ?_⟩
  · simp only [countStreaming, createMessage, touchSession,
      List.countP_append]
    have hz : List.countP (isStreamingIn sid)
        [(⟨id, sid2, roleArg, content, now, MsgStatus.complete⟩ : MsgRow)]
        = 0 := rfl
    rw [hz]
    simpa using hinv
  · simp only [countStreaming, updateStreamingContent]
    exact countP_map_eq_of_pointwise _ _ _ (by
      intro a
      by_cases hid : a.id == mid
      · simp [hid, isStreamingIn]
      · simp [hid])
  · refine le_trans ?_ hinv
    simp only [countStreaming, completeStreamingMessage]
    exact countP_map_le_of_pointwise _ _ _ (by
      intro a ha
      by_cases hid : a.id == mid
      · simp only [hid, if_true] at ha
        simp [isStreamingIn] at ha
      · simp only [hid] at ha
        simpa using ha)
  · simp only [countStreaming, updateMessage]
    exact countP_map_eq_of_pointwise _ _ _ (by
      intro a
      by_cases hid : a.id == mid && a.session_id == sid2
      · simp [hid, isStreamingIn]
      · simp [hid])
  · refine le_trans ?_ hinv
    simp only [countStreaming, deleteMessage]
    exact countP_filter_le _ _ _
  · rcases hm : getMessage db mid sid2 with _ | msg
    · simp only [countStreaming, deleteMessagesAfter, hm]
      exact hinv
    · simp only [countStreaming, deleteMessagesAfter, hm]
      exact le_trans (countP_filter_le _ _ _) hinv
  · unfold forkPreservesStreaming
    rcases hf : forkSession db src uid upTo newSid fresh now with _ | r
    · trivial
    · unfold forkSession at hf
      rcases hs : getChatSession db src uid with _ | source
      · rw [hs] at hf; cases hf
      · rw [hs] at hf
        rcases ht : getMessage db upTo src with _ | targetMsg
        · rw [ht] at hf; cases hf
        · rw [ht] at hf
          simp only [Option.some.injEq] at hf
          rw [← hf]
          simp only [countStreaming, createChatSession, List.countP_append]
          have hcopies : List.countP (isStreamingIn sid)
              ((sortByCreatedAt (db.messages.filter
                  (forkCopyPred src targetMsg.created_at upTo))).enum.map
                (fun p =>
                  ({ id := fresh p.1, session_id := newSid, role := p.2.role,
                     content := p.2.content, created_at := p.2.created_at,
                     status := MsgStatus.complete } : MsgRow)))
              = 0 := by
            rw [List.countP_eq_zero]
            intro c hc
            obtain ⟨pair, _, rfl⟩ := List.mem_map.mp hc
            simp [isStreamingIn]
          rw [hcopies]
          simpa using hinv
  · simp only [countStreaming, createStreamingMessage, touchSession,
      List.countP_append]
    have ho : List.countP (isStreamingIn sid)
        [(⟨id, sid, roleArg, "", now, MsgStatus.streaming⟩ : MsgRow)]
        = 1 := by
      simp [List.countP_cons, isStreamingIn]
    rw [ho]

theorem streaming_invariant_preservation_witness :
    (countStreaming dbSingleSession "s1" ≤ 1) ∧
    (countStreaming (createMessage dbSingleSession "s1" Role.user "x" "m1" 1) "s1" ≤ 1 ∧
     countStreaming (updateStreamingContent dbSingleSession "m9" "x") "s1"
       = countStreaming dbSingleSession "s1" ∧
     countStreaming (completeStreamingMessage dbSingleSession "m9" "x") "s1" ≤ 1 ∧
     countStreaming (updateMessage dbSingleSession "m9" "s1" "x") "s1"
       = countStreaming dbSingleSession "s1" ∧
     countStreaming (deleteMessage dbSingleSession "m9" "s1") "s1" ≤ 1 ∧
     countStreaming (deleteMessagesAfter dbSingleSession "m9" "s1").1 "s1" ≤ 1 ∧
     forkPreservesStreaming dbSingleSession "s1" "s1" "u1" "m9" "s2"
       (fun _ => "f") 1 ∧
     countStreaming (createStreamingMessage dbSingleSession "s1" Role.user "m1" 1) "s1"
       = countStreaming dbSingleSession "s1" + 1) :=
  ⟨by decide,
   streaming_invariant_preservation dbSingleSession "s1" (by decide)
     "s1" "x" "m1" "m9" "s1" "u1" "m9" "s2" Role.user (fun _ => "f") 1⟩

def StreamEff.deliveredEvent : StreamEff → Option StreamEvent
  | StreamEff.deliver e _ => some e
  | _ => none

theorem streamLoop_persist_independent (aborted : Nat → Bool)
    (times : Nat → Nat) (f f' : Nat → Bool) (events : List StreamEvent) :
    ∀ i acc lastSave,
      (streamLoop aborted times f i acc lastSave events).1.filter
          (fun e => !e.isDeliver)
        = (streamLoop aborted times f' i acc lastSave events).1.filter
            (fun e => !e.isDeliver) ∧
      (streamLoop aborted times f i acc lastSave events).2
        = (streamLoop aborted times f' i acc lastSave events).2 := by
  induction events with
  | nil =>
    intro i acc lastSave
    rw [streamLoop_nil, streamLoop_nil]
    exact ⟨rfl, rfl⟩
  | cons ev rest ih =>
    intro i acc lastSave
    by_cases hab : aborted i
    · rw [streamLoop_cons_aborted _ _ _ _ _ _ _ _ hab,
        streamLoop_cons_aborted _ _ _ _ _ _ _ _ hab]
      exact ⟨rfl, rfl⟩
    · rw [Bool.not_eq_true] at hab
      cases ev with
      | token t =>
        by_cases hsnap : times i - lastSave > SAVE_INTERVAL_MS
        · rw [streamLoop_cons_token_snap _ _ _ _ _ _ _ _ hab hsnap,
            streamLoop_cons_token_snap _ _ _ _ _ _ _ _ hab hsnap]
          have h := ih (i + 1) (acc ++ t) (times i)
          refine ⟨?_, h.2⟩
          simp [List.filter_cons, StreamEff.isDeliver]
          exact h.1
        · rw [streamLoop_cons_token_nosnap _ _ _ _ _ _ _ _ hab hsnap,
            streamLoop_cons_token_nosnap _ _ _ _ _ _ _ _ hab hsnap]
          have h := ih (i + 1) (acc ++ t) lastSave
          refine ⟨?_, h.2⟩
          simp [List.filter_cons, StreamEff.isDeliver]
          exact h.1
      | thinking msg =>
        rw [streamLoop_cons_thinking _ _ _ _ _ _ _ _ hab,
          streamLoop_cons_thinking _ _ _ _ _ _ _ _ hab]
        have h := ih (i + 1) acc lastSave
        refine ⟨?_, h.2⟩
        simp [List.filter_cons, StreamEff.isDeliver]
        exact h.1
      | done =>
        rw [streamLoop_cons_done _ _ _ _ _ _ _ hab,
          streamLoop_cons_done _ _ _ _ _ _ _ hab]
        have h := ih (i + 1) acc lastSave
        refine ⟨?_, h.2⟩
        simp [List.filter_cons, StreamEff.isDeliver]
        exact h.1

theorem streamLoop_delivers_all (times : Nat → Nat) (failDeliver : Nat → Bool)
    (events : List StreamEvent) :
    ∀ i acc lastSave,
      (streamLoop (fun _ => false) times failDeliver i acc lastSave
          events).1.filterMap StreamEff.deliveredEvent
        = events := by
  induction events with
  | nil =>
    intro i acc lastSave
    rw [streamLoop_nil]
    rfl
  | cons ev rest ih =>
    intro i acc lastSave
    have hab : (fun _ : Nat => false) i = false := rfl
    cases ev with
    | token t =>
      by_cases hsnap : times i - lastSave > SAVE_INTERVAL_MS
      · rw [streamLoop_cons_token_snap _ _ _ _ _ _ _ _ hab hsnap]
        simp [List.filterMap_cons, StreamEff.deliveredEvent, ih]
      · rw [streamLoop_cons_token_nosnap _ _ _ _ _ _ _ _ hab hsnap]
        simp [List.filterMap_cons, StreamEff.deliveredEvent, ih]
    | thinking msg =>
      rw [streamLoop_cons_thinking _ _ _ _ _ _ _ _ hab]
      simp [List.filterMap_cons, StreamEff.deliveredEvent, ih]
    | done =>
      rw [streamLoop_cons_done _ _ _ _ _ _ _ hab]
      simp [List.filterMap_cons, StreamEff.deliveredEvent, ih]

/-- C8: delivery to the live client is attempted once per incoming event,
in order, regardless of snapshot timing (when no stop occurs, the
delivered event sequence is exactly the upstream event sequence for every
timing function); and whether deliveries fail has no influence on the
persistence writes, the accumulated text, or the error outcome. -/
theorem streamAndSave_delivery_swallowed
    (events : List StreamEvent) (errAfter : Bool) (aborted : Nat → Bool)
    (times : Nat → Nat) (t0 : Nat) (f f' : Nat → Bool) :
    ((streamAndSave events errAfter (fun _ => false) times t0 f).effects.filterMap
        StreamEff.deliveredEvent
      = events) ∧
    ((streamAndSave events errAfter aborted times t0 f).effects.filter
        (fun e => !e.isDeliver)
      = (streamAndSave events errAfter aborted times t0 f').effects.filter
          (fun e => !e.isDeliver)) ∧
    (streamAndSave events errAfter aborted times t0 f).text
      = (streamAndSave events errAfter aborted times t0 f').text ∧
    (streamAndSave events errAfter aborted times t0 f).errored
      = (streamAndSave events errAfter aborted times t0 f').errored := by
  have hind := streamLoop_persist_independent aborted times f f' events 0 "" t0
  refine ⟨?_, ?_, ?_, ?_⟩
  · rw [streamAndSave]
    simp only [List.filterMap_append]
    rw [streamLoop_delivers_all times f events 0 "" t0]
    simp [StreamEff.deliveredEvent]
  · rw [streamAndSave, streamAndSave]
    simp only [List.filter_append]
    rw [hind.1, hind.2]
  · rw [streamAndSave, streamAndSave]
    simp only
    rw [hind.2]
  · rw [streamAndSave, streamAndSave]
    simp only
    rw [hind.2]

/-- Calls to the remote thread API made by a route (you-client.ts
`deleteThread`, best-effort). -/
inductive ThreadEff where
  | deleteThread (chatId : String)
deriving DecidableEq, Repr

structure EditResult where
  db : Db
  threadEffects : List ThreadEff
  ok : Bool
deriving DecidableEq, Repr

/-- The message-edit route `sessions.patch("/:id/messages/:messageId")`
(sessions.ts): validate the content and the session, then a plain
`updateMessage`. The route does not import the remote-thread client; it
makes no thread calls and never touches `you_chat_id`. -/
def editMessageRoute (db : Db) (userId sessionId messageId content : String) :
    EditResult :=
  if content == "" then ⟨db, [], false⟩
  else
    match getChatSession db sessionId userId with
    | none => ⟨db, [], false⟩
    | some _ =>
      let db' := updateMessage db messageId sessionId content
      match getMessage db' messageId sessionId with
      | none => ⟨db', [], false⟩
      | some _ => ⟨db', [], true⟩

/-- The message-delete route `sessions.delete("/:id/messages/:messageId")`
(sessions.ts): validate the session, then a plain `deleteMessage`; no
thread calls, `you_chat_id` untouched. -/
def deleteMessageRoute (db : Db) (userId sessionId messageId : String) :
    EditResult :=
  match getChatSession db sessionId userId with
  | none => ⟨db, [], false⟩
  | some _ => ⟨deleteMessage db messageId sessionId, [], true⟩

structure RegenResult where
  db : Db
  registry : List String
  threadEffects : List ThreadEff
  newYouChatId : String
  query : String
  chatHistory : List QA
  ok : Bool

/-- The regenerate route `chat.post("/regenerate")` (chat.ts), after
auth/credential checks: validate session and target message; truncate the
local history after the target (`deleteMessagesAfter`); best-effort
delete of the old You.com thread when one exists; mint and persist a new
thread id; rebuild the query (last remaining user message) and the turn
pairs from the truncated ordered history; create the streaming assistant
message; register the abort controller. -/
def regenerateRoute (db : Db) (reg : List String)
    (userId sessionId messageId newYouChatId asstMsgId : String)
    (now : Nat) : RegenResult :=
  match getChatSession db sessionId userId with
  | none => ⟨db, reg, [], newYouChatId, "", [], false⟩
  | some _ =>
    match getMessage db messageId sessionId with
    | none => ⟨db, reg, [], newYouChatId, "", [], false⟩
    | some _ =>
      let db1 := (deleteMessagesAfter db messageId sessionId).1
      let oldYouChatId := getSessionYouChatId db1 sessionId
      let effects := match oldYouChatId with
        | some o => [ThreadEff.deleteThread o]
        | none => []
      let db2 := updateSessionYouChatId db1 sessionId (some newYouChatId)
      let history := getMessages db2 sessionId
      let query := match (history.filter (fun m => m.role == Role.user)).getLast? with
        | some m => m.content
        | none => ""
      let chatHistory := buildChatHistory
        (history.map (fun m => ⟨m.role, m.content⟩))
      let db3 := createStreamingMessage db2 sessionId Role.assistant asstMsgId now
      ⟨db3, activeStreamsSet reg sessionId, effects, newYouChatId, query,
        chatHistory, true⟩

/-- A conversation with three complete turns and a live thread handle. -/
def dbThreeTurns (q1 a1 q2 a2 q3 a3 : String) : Db :=
  ⟨[⟨"c1", "u1", "t", "express", some "old-thread", 0, 0⟩],
   [⟨"m1", "c1", Role.user, q1, 1, MsgStatus.complete⟩,
    ⟨"m2", "c1", Role.assistant, a1, 2, MsgStatus.complete⟩,
    ⟨"m3", "c1", Role.user, q2, 3, MsgStatus.complete⟩,
    ⟨"m4", "c1", Role.assistant, a2, 4, MsgStatus.complete⟩,
    ⟨"m5", "c1", Role.user, q3, 5, MsgStatus.complete⟩,
    ⟨"m6", "c1", Role.assistant, a3, 6, MsgStatus.complete⟩]⟩

/-- C4 counterexample: editing the turn-2 question of a 3-turn
conversation, and deleting that (non-trailing) message, both succeed as
plain CRUD — no remote thread call is made and the conversation's thread
handle is exactly the old one afterwards, so no new handle is minted or
persisted. -/
theorem edit_delete_no_thread_rebase_counterexample :
    (editMessageRoute (dbThreeTurns "q1" "a1" "q2" "a2" "q3" "a3")
        "u1" "c1" "m3" "edited").ok = true ∧
    (editMessageRoute (dbThreeTurns "q1" "a1" "q2" "a2" "q3" "a3")
        "u1" "c1" "m3" "edited").threadEffects = [] ∧
    getSessionYouChatId
        (editMessageRoute (dbThreeTurns "q1" "a1" "q2" "a2" "q3" "a3")
          "u1" "c1" "m3" "edited").db "c1"
      = some "old-thread" ∧
    (deleteMessageRoute (dbThreeTurns "q1" "a1" "q2" "a2" "q3" "a3")
        "u1" "c1" "m3").ok = true ∧
    (deleteMessageRoute (dbThreeTurns "q1" "a1" "q2" "a2" "q3" "a3")
        "u1" "c1" "m3").threadEffects = [] ∧
    getSessionYouChatId
        (deleteMessageRoute (dbThreeTurns "q1" "a1" "q2" "a2" "q3" "a3")
          "u1" "c1" "m3").db "c1"
      = some "old-thread" := by
  decide

/-- The rebase scenario: in a 3-turn conversation the turn-2 question
(`m3`) is edited, then generation is rerun from it via the regenerate
route, which is where thread-rebase lives. -/
def regenAfterEditScenario (q1 a1 q2 a2 q3 a3 q2e : String) : RegenResult :=
  regenerateRoute
    (editMessageRoute (dbThreeTurns q1 a1 q2 a2 q3 a3) "u1" "c1" "m3" q2e).db
    [] "u1" "c1" "m3" "new-thread" "m7" 7

/-- C4 (amended): editing or deleting a message is plain CRUD with no
thread-rebase side effect (counterexample above); thread-rebase teardown
semantics live in the regenerate flow: regenerating from the edited
turn-2 question of a 3-turn conversation tears down the old thread
handle best-effort, persists a new handle different from the old one,
uses the edited text as the query, and rebuilds the turn-pair list from
the truncated history — exactly 1 pair (turn 1), not 3. -/
theorem regenerate_performs_thread_rebase
    (q1 a1 q2 a2 q3 a3 q2e : String) (h : q2e ≠ "") :
    (regenAfterEditScenario q1 a1 q2 a2 q3 a3 q2e).ok = true ∧
    (regenAfterEditScenario q1 a1 q2 a2 q3 a3 q2e).threadEffects
      = [ThreadEff.deleteThread "old-thread"] ∧
    getSessionYouChatId (regenAfterEditScenario q1 a1 q2 a2 q3 a3 q2e).db "c1"
      = some "new-thread" ∧
    (some "new-thread" : Option String) ≠ some "old-thread" ∧
    (regenAfterEditScenario q1 a1 q2 a2 q3 a3 q2e).chatHistory = [⟨q1, a1⟩] ∧
    (regenAfterEditScenario q1 a1 q2 a2 q3 a3 q2e).query = q2e := by
  have hq : (q2e == "") = false := by
    simp [h]
  simp only [regenAfterEditScenario, editMessageRoute, hq, Bool.false_eq_true,
    if_false]
  exact ⟨rfl, rfl, rfl, by decide, rfl, rfl⟩

theorem regenerate_performs_thread_rebase_witness :
    (("Q2 v2" : String) ≠ "") ∧
    ((regenAfterEditScenario "Q1" "A1" "Q2" "A2" "Q3" "A3" "Q2 v2").ok = true ∧
     (regenAfterEditScenario "Q1" "A1" "Q2" "A2" "Q3" "A3" "Q2 v2").threadEffects
       = [ThreadEff.deleteThread "old-thread"] ∧
     getSessionYouChatId
         (regenAfterEditScenario "Q1" "A1" "Q2" "A2" "Q3" "A3" "Q2 v2").db "c1"
       = some "new-thread" ∧
     (some "new-thread" : Option String) ≠ some "old-thread" ∧
     (regenAfterEditScenario "Q1" "A1" "Q2" "A2" "Q3" "A3" "Q2 v2").chatHistory
       = [⟨"Q1", "A1"⟩] ∧
     (regenAfterEditScenario "Q1" "A1" "Q2" "A2" "Q3" "A3" "Q2 v2").query
       = "Q2 v2") :=
  ⟨by decide,
   regenerate_performs_thread_rebase "Q1" "A1" "Q2" "A2" "Q3" "A3" "Q2 v2"
     (by decide)⟩

/-- A stopped attempt: the abort signal fires before the third token. -/
def abortedRun : StreamRunResult :=
  streamAndSave
    [StreamEvent.token "He", StreamEvent.token "l", StreamEvent.token "lo!"]
    false (fun i => decide (2 ≤ i)) (fun _ => 0) 0 (fun _ => false)

/-- C2 (code bug): when the abort signal fires, `streamAndSave` breaks out
of the loop and its `finally` block commits the partial text — the
assistant message is finalized to `complete` with the accumulated prefix
and remains in the store; neither the abort path nor the `/stop` route
(which only signals the controller and cleans the Stream Registry)
deletes it, although the product policy stated in the spec — and the
client code's own comment, which waits for the server "to delete the
partial message" — say the partial assistant message is deleted. -/
theorem stopped_attempt_keeps_partial_message :
    abortedRun.text = "Hel" ∧
    abortedRun.effects
      = [StreamEff.deliver (StreamEvent.token "He") true,
         StreamEff.deliver (StreamEvent.token "l") true,
         StreamEff.terminal "Hel"] ∧
    getMessage (completeStreamingMessage startOnce.db "m2" abortedRun.text)
        "m2" "s1"
      = some ⟨"m2", "s1", Role.assistant, "Hel", 5, MsgStatus.complete⟩ ∧
    (stopRoute ["s1"] "s1").registry = [] := by
  decide

theorem filter_length_split {α : Type} (l : List α) (p : α → Bool) :
    (l.filter p).length + (l.filter (fun a => !p a)).length = l.length := by
  induction l with
  | nil => rfl
  | cons a t ih =>
    simp only [List.filter_cons]
    by_cases hp : p a = true
    · rw [hp]
      simp only [Bool.not_true, Bool.false_eq_true, if_false, if_true,
        List.length_cons]
      omega
    · rw [Bool.not_eq_true] at hp
      rw [hp]
      simp only [Bool.not_false, Bool.false_eq_true, if_false, if_true,
        List.length_cons]
      omega

/-- C10: `deleteMessagesAfter` keeps the target message and deletes from
the target's session exactly the rows with a strictly later `created_at`,
or the same `created_at` but a different id (so same-second rows — even
ones inserted before the target — are deleted too); the session table is
untouched; the returned count is the number of deleted rows; and when the
target does not exist in the session, the store is unchanged and 0 is
returned. -/
theorem deleteMessagesAfter_truncation_law
    (db : Db) (mid sid : String) (msg : MsgRow)
    (h : getMessage db mid sid = some msg)
    (db2 : Db) (mid2 sid2 : String)
    (h2 : getMessage db2 mid2 sid2 = none) :
    (deleteMessagesAfter db mid sid).1.sessions = db.sessions ∧
    msg ∈ (deleteMessagesAfter db mid sid).1.messages ∧
    (∀ m ∈ db.messages,
        (m ∈ (deleteMessagesAfter db mid sid).1.messages
          ↔ deleteAfterPred sid msg.created_at mid m = false)) ∧
    (deleteMessagesAfter db mid sid).2
      = (db.messages.filter (deleteAfterPred sid msg.created_at mid)).length ∧
    deleteMessagesAfter db2 mid2 sid2 = (db2, 0) := by
  have h' : db.messages.find? (fun m => m.id == mid && m.session_id == sid)
      = some msg := h
  have hmem : msg ∈ db.messages := List.mem_of_find?_eq_some h'
  have hpmsg0 := List.find?_some h'
  have hpmsg : (msg.id == mid && msg.session_id == sid) = true := hpmsg0
  rw [Bool.and_eq_true] at hpmsg
  have hid : (msg.id == mid) = true := hpmsg.1
  have hbne : (msg.id != mid) = false := by simp [bne, hid]
  have hpredmsg : deleteAfterPred sid msg.created_at mid msg = false := by
    unfold deleteAfterPred
    rw [hbne]
    simp
  have hdel : deleteMessagesAfter db mid sid
      = (⟨db.sessions, db.messages.filter
            (fun m => !deleteAfterPred sid msg.created_at mid m)⟩,
         db.messages.length - (db.messages.filter
            (fun m => !deleteAfterPred sid msg.created_at mid m)).length) := by
    unfold deleteMessagesAfter
    rw [show getMessage db mid sid = some msg from h]
  have hdel2 : deleteMessagesAfter db2 mid2 sid2 = (db2, 0) := by
    unfold deleteMessagesAfter
    rw [show getMessage db2 mid2 sid2 = none from h2]
  refine ⟨?_, ?_, ?_, ?_, hdel2⟩
  · rw [hdel]
  · rw [hdel]
    exact List.mem_filter.mpr ⟨hmem, by rw [hpredmsg]; rfl⟩
  · intro m hm
    rw [hdel]
    constructor
    · intro hmf
      have hx := (List.mem_filter.mp hmf).2
      simpa using hx
    · intro hpf
      exact List.mem_filter.mpr ⟨hm, by rw [hpf]; rfl⟩
  · rw [hdel]
    have hsplit := filter_length_split db.messages
      (deleteAfterPred sid msg.created_at mid)
    simp only
    omega

/-- A store with same-second rows around the target `t` (row `b` shares
the target's timestamp and is listed before it) and a row in another
session. -/
def dbTrunc : Db :=
  ⟨[⟨"s", "u", "t", "express", none, 0, 0⟩],
   [⟨"a", "s", Role.user, "qa", 1, MsgStatus.complete⟩,
    ⟨"b", "s", Role.assistant, "qb", 2, MsgStatus.complete⟩,
    ⟨"t", "s", Role.user, "qt", 2, MsgStatus.complete⟩,
    ⟨"c", "s", Role.assistant, "qc", 3, MsgStatus.complete⟩,
    ⟨"d", "other", Role.user, "qd", 9, MsgStatus.complete⟩]⟩

theorem deleteMessagesAfter_truncation_law_witness :
    (getMessage dbTrunc "t" "s"
      = some ⟨"t", "s", Role.user, "qt", 2, MsgStatus.complete⟩) ∧
    (getMessage dbTrunc "zz" "s" = none) ∧
    ((deleteMessagesAfter dbTrunc "t" "s").1.sessions = dbTrunc.sessions ∧
     (⟨"t", "s", Role.user, "qt", 2, MsgStatus.complete⟩ : MsgRow)
       ∈ (deleteMessagesAfter dbTrunc "t" "s").1.messages ∧
     (∀ m ∈ dbTrunc.messages,
        (m ∈ (deleteMessagesAfter dbTrunc "t" "s").1.messages
          ↔ deleteAfterPred "s"
              (MsgRow.created_at ⟨"t", "s", Role.user, "qt", 2, MsgStatus.complete⟩)
              "t" m = false)) ∧
     (deleteMessagesAfter dbTrunc "t" "s").2
       = (dbTrunc.messages.filter
           (deleteAfterPred "s"
             (MsgRow.created_at ⟨"t", "s", Role.user, "qt", 2, MsgStatus.complete⟩)
             "t")).length ∧
     deleteMessagesAfter dbTrunc "zz" "s" = (dbTrunc, 0)) :=
  ⟨by decide, by decide,
   deleteMessagesAfter_truncation_law dbTrunc "t" "s"
     ⟨"t", "s", Role.user, "qt", 2, MsgStatus.complete⟩ (by decide)
     dbTrunc "zz" "s" (by decide)⟩

theorem mem_insertByCreatedAt (m a : MsgRow) (l : List MsgRow) :
    a ∈ insertByCreatedAt m l ↔ a = m ∨ a ∈ l := by
  induction l with
  | nil => simp [insertByCreatedAt]
  | cons x rest ih =>
    rw [insertByCreatedAt]
    by_cases hle : m.created_at ≤ x.created_at
    · simp [hle]
    · rw [if_neg hle]
      simp only [List.mem_cons, ih]
      tauto

theorem mem_sortByCreatedAt (a : MsgRow) (l : List MsgRow) :
    a ∈ sortByCreatedAt l ↔ a ∈ l := by
  induction l with
  | nil => simp [sortByCreatedAt]
  | cons x rest ih =>
    have hstep : sortByCreatedAt (x :: rest)
        = insertByCreatedAt x (sortByCreatedAt rest) := rfl
    rw [hstep, mem_insertByCreatedAt, ih, List.mem_cons]

structure ForkRouteResult where
  db : Db
  threadEffects : List ThreadEff
  ok : Bool

/-- The fork route `sessions.post("/:id/fork")` (sessions.ts): calls
`forkSession` and returns the new session; it performs no remote thread
call — in particular it does not tear down the source conversation's
thread. -/
def forkRoute (db : Db) (userId sessionId messageId newSessionId : String)
    (freshIds : Nat → String) (now : Nat) : ForkRouteResult :=
  match forkSession db sessionId userId messageId newSessionId freshIds now with
  | none => ⟨db, [], false⟩
  | some r => ⟨r.1, [], true⟩

/-- The data of a message row that forking copies (everything except the
id, the owning session and the status). -/
def msgCopyData (m : MsgRow) : Role × String × Nat :=
  (m.role, m.content, m.created_at)

/-- C6: forking conversation A at message M into brand-new conversation B
copies exactly the rows matched by the fork predicate — which includes M
itself — ordered by `created_at`, into B; B's thread handle is NULL
immediately after the fork; and A is entirely unchanged: its session
lookup (hence its thread handle) and its message list are the same as
before the fork, and the fork route makes no remote thread call. -/
theorem forkSession_frame_law
    (db : Db) (src uid upTo newSid : String) (fresh : Nat → String) (now : Nat)
    (source : SessRow) (targetMsg : MsgRow) (db' : Db) (newSess : SessRow)
    (n : Nat)
    (hs : getChatSession db src uid = some source)
    (ht : getMessage db upTo src = some targetMsg)
    (hf : forkSession db src uid upTo newSid fresh now = some (db', newSess, n))
    (hfresh1 : newSid ≠ src)
    (hfreshmsg : ∀ m ∈ db.messages, m.session_id ≠ newSid) :
    newSess.you_chat_id = none ∧
    getChatSession db' src uid = getChatSession db src uid ∧
    getSessionYouChatId db' src = getSessionYouChatId db src ∧
    getMessages db' src = getMessages db src ∧
    (db'.messages.filter (fun m => m.session_id == newSid)).map msgCopyData
      = (sortByCreatedAt (db.messages.filter
          (forkCopyPred src targetMsg.created_at upTo))).map msgCopyData ∧
    (∃ m ∈ db'.messages, m.session_id = newSid
        ∧ msgCopyData m = msgCopyData targetMsg) ∧
    (forkRoute db uid src upTo newSid fresh now).threadEffects = [] := by
  have hs' : db.sessions.find? (fun s => s.id == src && s.user_id == uid)
      = some source := hs
  have ht' : db.messages.find? (fun m => m.id == upTo && m.session_id == src)
      = some targetMsg := ht
  have hexp : forkSession db src uid upTo newSid fresh now
      = some (⟨db.sessions
            ++ [⟨newSid, uid, source.title ++ " (fork)", source.agent,
                  none, now, now⟩],
          db.messages
            ++ (sortByCreatedAt (db.messages.filter
                  (forkCopyPred src targetMsg.created_at upTo))).enum.map
                (fun p =>
                  ({ id := fresh p.1, session_id := newSid, role := p.2.role,
                     content := p.2.content, created_at := p.2.created_at,
                     status := MsgStatus.complete } : MsgRow))⟩,
          ⟨newSid, uid, source.title ++ " (fork)", source.agent,
            none, now, now⟩,
          (sortByCreatedAt (db.messages.filter
            (forkCopyPred src targetMsg.created_at upTo))).length) := by
    unfold forkSession
    rw [hs, ht]
    rfl
  rw [hexp] at hf
  simp only [Option.some.injEq, Prod.mk.injEq] at hf
  obtain ⟨hdb, hsess, hn⟩ := hf
  have htpmem := List.mem_of_find?_eq_some ht'
  have htp0 := List.find?_some ht'
  have htp1 : (targetMsg.id == upTo && targetMsg.session_id == src) = true :=
    htp0
  rw [Bool.and_eq_true] at htp1
  have htid : targetMsg.id = upTo := beq_iff_eq.mp htp1.1
  have htsid : (targetMsg.session_id == src) = true := htp1.2
  have htpred : forkCopyPred src targetMsg.created_at upTo targetMsg = true := by
    simp [forkCopyPred, htsid, htid]
  have htsorted : targetMsg ∈ sortByCreatedAt (db.messages.filter
      (forkCopyPred src targetMsg.created_at upTo)) :=
    (mem_sortByCreatedAt _ _).mpr
      (List.mem_filter.mpr ⟨htpmem, htpred⟩)
  have hcopyeq : ((db'.messages.filter
        (fun m => m.session_id == newSid)).map msgCopyData
      = (sortByCreatedAt (db.messages.filter
          (forkCopyPred src targetMsg.created_at upTo))).map msgCopyData) := by
    rw [← hdb]
    show ((db.messages ++ _).filter _).map msgCopyData = _
    rw [List.filter_append]
    have hold : db.messages.filter (fun m => m.session_id == newSid) = [] := by
      rw [List.filter_eq_nil_iff]
      intro m hm
      simp [hfreshmsg m hm]
    have hnew : ((sortByCreatedAt (db.messages.filter
          (forkCopyPred src targetMsg.created_at upTo))).enum.map
        (fun p =>
          ({ id := fresh p.1, session_id := newSid, role := p.2.role,
             content := p.2.content, created_at := p.2.created_at,
             status := MsgStatus.complete } : MsgRow))).filter
          (fun m => m.session_id == newSid)
        = (sortByCreatedAt (db.messages.filter
            (forkCopyPred src targetMsg.created_at upTo))).enum.map
          (fun p =>
            ({ id := fresh p.1, session_id := newSid, role := p.2.role,
               content := p.2.content, created_at := p.2.created_at,
               status := MsgStatus.complete } : MsgRow)) := by
      rw [List.filter_eq_self]
      intro m hm
      obtain ⟨p, _, rfl⟩ := List.mem_map.mp hm
      simp
    rw [hold, hnew, List.nil_append, List.map_map]
    have hcomp : (msgCopyData ∘ (fun p : Nat × MsgRow =>
        ({ id := fresh p.1, session_id := newSid, role := p.2.role,
           content := p.2.content, created_at := p.2.created_at,
           status := MsgStatus.complete } : MsgRow)))
        = msgCopyData ∘ Prod.snd := rfl
    rw [hcomp, ← List.map_map, List.enum_map_snd]
  refine ⟨?_, ?_, ?_, ?_, hcopyeq, ?_, ?_⟩
  · rw [← hsess]
  · rw [← hdb]
    show List.find? _ (db.sessions ++ _) = _
    rw [List.find?_append, hs', hs]
    rfl
  · have hq : ((db.sessions.find? (fun s => s.id == src)).isSome) := by
      rw [List.find?_isSome]
      refine ⟨source, List.mem_of_find?_eq_some hs', ?_⟩
      have := List.find?_some hs'
      have hsp : (source.id == src && source.user_id == uid) = true := this
      rw [Bool.and_eq_true] at hsp
      exact hsp.1
    obtain ⟨s0, hs0⟩ := Option.isSome_iff_exists.mp hq
    rw [← hdb]
    show (match List.find? _ (db.sessions ++ _) with
      | none => none
      | some s => match s.you_chat_id with
        | none => none
        | some y => if y == "" then none else some y) = _
    rw [List.find?_append, hs0]
    unfold getSessionYouChatId
    rw [hs0]
    rfl
  · rw [← hdb]
    show sortByCreatedAt ((db.messages ++ _).filter _) = _
    rw [List.filter_append]
    have hcop : ((sortByCreatedAt (db.messages.filter
          (forkCopyPred src targetMsg.created_at upTo))).enum.map
        (fun p =>
          ({ id := fresh p.1, session_id := newSid, role := p.2.role,
             content := p.2.content, created_at := p.2.created_at,
             status := MsgStatus.complete } : MsgRow))).filter
          (fun m => m.session_id == src) = [] := by
      rw [List.filter_eq_nil_iff]
      intro m hm
      obtain ⟨p, _, rfl⟩ := List.mem_map.mp hm
      simp [hfresh1]
    rw [hcop, List.append_nil]
    rfl
  · have h6 : msgCopyData targetMsg
        ∈ (db'.messages.filter (fun m => m.session_id == newSid)).map
            msgCopyData := by
      rw [hcopyeq]
      exact List.mem_map_of_mem msgCopyData htsorted
    obtain ⟨m, hmf, hmc⟩ := List.mem_map.mp h6
    have hmm := List.mem_filter.mp hmf
    exact ⟨m, hmm.1, beq_iff_eq.mp hmm.2, hmc⟩
  · unfold forkRoute
    rw [hexp]

def dbForkSrc : Db := dbThreeTurns "q1" "a1" "q2" "a2" "q3" "a3"

def forkFresh : Nat → String := fun k =>
  if k = 0 then "f0" else if k = 1 then "f1" else if k = 2 then "f2" else "f3"

/-- The expected store after forking `c1` at message `m4` into `c2`. -/
def dbForked : Db :=
  ⟨[⟨"c1", "u1", "t", "express", some "old-thread", 0, 0⟩,
    ⟨"c2", "u1", "t (fork)", "express", none, 10, 10⟩],
   [⟨"m1", "c1", Role.user, "q1", 1, MsgStatus.complete⟩,
    ⟨"m2", "c1", Role.assistant, "a1", 2, MsgStatus.complete⟩,
    ⟨"m3", "c1", Role.user, "q2", 3, MsgStatus.complete⟩,
    ⟨"m4", "c1", Role.assistant, "a2", 4, MsgStatus.complete⟩,
    ⟨"m5", "c1", Role.user, "q3", 5, MsgStatus.complete⟩,
    ⟨"m6", "c1", Role.assistant, "a3", 6, MsgStatus.complete⟩,
    ⟨"f0", "c2", Role.user, "q1", 1, MsgStatus.complete⟩,
    ⟨"f1", "c2", Role.assistant, "a1", 2, MsgStatus.complete⟩,
    ⟨"f2", "c2", Role.user, "q2", 3, MsgStatus.complete⟩,
    ⟨"f3", "c2", Role.assistant, "a2", 4, MsgStatus.complete⟩]⟩

def forkedSess : SessRow := ⟨"c2", "u1", "t (fork)", "express", none, 10, 10⟩

theorem forkSession_frame_law_witness :
    (getChatSession dbForkSrc "c1" "u1"
      = some ⟨"c1", "u1", "t", "express", some "old-thread", 0, 0⟩) ∧
    (getMessage dbForkSrc "m4" "c1"
      = some ⟨"m4", "c1", Role.assistant, "a2", 4, MsgStatus.complete⟩) ∧
    (forkSession dbForkSrc "c1" "u1" "m4" "c2" forkFresh 10
      = some (dbForked, forkedSess, 4)) ∧
    (("c2" : String) ≠ "c1") ∧
    (∀ m ∈ dbForkSrc.messages, m.session_id ≠ "c2") ∧
    (forkedSess.you_chat_id = none ∧
     getChatSession dbForked "c1" "u1" = getChatSession dbForkSrc "c1" "u1" ∧
     getSessionYouChatId dbForked "c1" = getSessionYouChatId dbForkSrc "c1" ∧
     getMessages dbForked "c1" = getMessages dbForkSrc "c1" ∧
     (dbForked.messages.filter (fun m => m.session_id == "c2")).map msgCopyData
       = (sortByCreatedAt (dbForkSrc.messages.filter
           (forkCopyPred "c1"
             (MsgRow.created_at
               ⟨"m4", "c1", Role.assistant, "a2", 4, MsgStatus.complete⟩)
             "m4"))).map msgCopyData ∧
     (∃ m ∈ dbForked.messages, m.session_id = "c2"
         ∧ msgCopyData m
             = msgCopyData
                 ⟨"m4", "c1", Role.assistant, "a2", 4, MsgStatus.complete⟩) ∧
     (forkRoute dbForkSrc "u1" "c1" "m4" "c2" forkFresh 10).threadEffects = []) :=
  ⟨by decide, by decide, by with_unfolding_all rfl, by decide, by decide,
   forkSession_frame_law dbForkSrc "c1" "u1" "m4" "c2" forkFresh 10
     ⟨"c1", "u1", "t", "express", some "old-thread", 0, 0⟩
     ⟨"m4", "c1", Role.assistant, "a2", 4, MsgStatus.complete⟩
     dbForked forkedSess 4
     (by decide) (by decide) (by with_unfolding_all rfl) (by decide) (by decide)⟩

def hexDigit (n : Nat) : Char :=
  if n < 10 then Char.ofNat (48 + n) else Char.ofNat (87 + n)

/-- `JSON.stringify`'s escaping of one character inside a string literal:
quote and backslash are backslash-escaped, the five named control escapes
are used for backspace, tab, newline, form feed and carriage return, any
other control character becomes a `\u00XX` sequence, and everything else
is emitted verbatim. -/
def jsonEscapeChar (c : Char) : List Char :=
  if c = '"' then ['\\', '"']
  else if c = '\\' then ['\\', '\\']
  else if c = '\x08' then ['\\', 'b']
  else if c = '\t' then ['\\', 't']
  else if c = '\n' then ['\\', 'n']
  else if c = '\x0c' then ['\\', 'f']
  else if c = '\r' then ['\\', 'r']
  else if c.toNat < 32 then
    ['\\', 'u', '0', '0', hexDigit (c.toNat / 16), hexDigit (c.toNat % 16)]
  else [c]

def escapeChars : List Char → List Char
  | [] => []
  | c :: rest => jsonEscapeChar c ++ escapeChars rest

def jsonEscape (s : String) : String := String.mk (escapeChars s.data)

def hexVal (c : Char) : Nat :=
  if 97 ≤ c.toNat then c.toNat - 87 else c.toNat - 48

def unescapeEsc (e : Char) : Char :=
  if e = 'b' then '\x08'
  else if e = 't' then '\t'
  else if e = 'n' then '\n'
  else if e = 'f' then '\x0c'
  else if e = 'r' then '\r'
  else e

/-- Inverse of `escapeChars`: a JSON string-literal body decodes back to
the original character sequence. -/
def unescapeChars : List Char → List Char
  | [] => []
  | c :: rest =>
    if c = '\\' then
      match rest with
      | [] => []
      | e :: rest2 =>
        if e = 'u' then
          match rest2 with
          | h1 :: h2 :: h3 :: h4 :: rest3 =>
            Char.ofNat (hexVal h1 * 4096 + hexVal h2 * 256 + hexVal h3 * 16
              + hexVal h4) :: unescapeChars rest3
          | _ => []
        else unescapeEsc e :: unescapeChars rest2
    else c :: unescapeChars rest

def jsonUnescape (s : String) : String := String.mk (unescapeChars s.data)

theorem hexVal_hexDigit (k : Nat) (h : k < 16) : hexVal (hexDigit k) = k := by
  interval_cases k <;> rfl

theorem unescapeChars_esc (e : Char) (rest2 : List Char) (he : ¬ e = 'u') :
    unescapeChars ('\\' :: e :: rest2) = unescapeEsc e :: unescapeChars rest2 := by
  rw [unescapeChars.eq_def]
  simp [he]

theorem unescapeChars_unicode (h1 h2 h3 h4 : Char) (rest3 : List Char) :
    unescapeChars ('\\' :: 'u' :: h1 :: h2 :: h3 :: h4 :: rest3)
      = Char.ofNat (hexVal h1 * 4096 + hexVal h2 * 256 + hexVal h3 * 16
          + hexVal h4) :: unescapeChars rest3 := by
  rw [unescapeChars.eq_def]
  simp

theorem unescapeChars_plain (c : Char) (rest : List Char) (h : ¬ c = '\\') :
    unescapeChars (c :: rest) = c :: unescapeChars rest := by
  rw [unescapeChars.eq_def]
  simp [h]

theorem unescape_escape_chars (l : List Char) :
    unescapeChars (escapeChars l) = l := by
  induction l with
  | nil => rfl
  | cons c rest ih =>
    have hstep : escapeChars (c :: rest) = jsonEscapeChar c ++ escapeChars rest :=
      rfl
    rw [hstep]
    by_cases h1 : c = '"'
    · subst h1
      simp [jsonEscapeChar, unescapeChars_esc, unescapeEsc, ih]
    by_cases h2 : c = '\\'
    · subst h2
      simp [jsonEscapeChar, unescapeChars_esc, unescapeEsc, ih]
    by_cases h3 : c = '\x08'
    · subst h3
      simp [jsonEscapeChar, h1, h2, unescapeChars_esc, unescapeEsc, ih]
    by_cases h4 : c = '\t'
    · subst h4
      simp [jsonEscapeChar, h1, h2, h3, unescapeChars_esc, unescapeEsc, ih]
    by_cases h5 : c = '\n'
    · subst h5
      simp [jsonEscapeChar, h1, h2, h3, h4, unescapeChars_esc, unescapeEsc, ih]
    by_cases h6 : c = '\x0c'
    · subst h6
      simp [jsonEscapeChar, h1, h2, h3, h4, h5, unescapeChars_esc, unescapeEsc,
        ih]
    by_cases h7 : c = '\r'
    · subst h7
      simp [jsonEscapeChar, h1, h2, h3, h4, h5, h6, unescapeChars_esc,
        unescapeEsc, ih]
    by_cases hc : c.toNat < 32
    · have hesc : jsonEscapeChar c
          = ['\\', 'u', '0', '0', hexDigit (c.toNat / 16),
             hexDigit (c.toNat % 16)] := by
        simp [jsonEscapeChar, h1, h2, h3, h4, h5, h6, h7, hc]
      rw [hesc]
      have hdiv : c.toNat / 16 < 16 := by omega
      have hmod : c.toNat % 16 < 16 := by omega
      simp only [List.cons_append, List.nil_append]
      rw [unescapeChars_unicode]
      rw [hexVal_hexDigit _ hdiv, hexVal_hexDigit _ hmod, ih]
      have hv : hexVal '0' * 4096 + hexVal '0' * 256 + c.toNat / 16 * 16
          + c.toNat % 16 = c.toNat := by
        have h0 : hexVal '0' = 0 := rfl
        rw [h0]
        omega
      rw [hv, Char.ofNat_toNat]
    · have hesc : jsonEscapeChar c = [c] := by
        simp [jsonEscapeChar, h1, h2, h3, h4, h5, h6, h7, hc]
      rw [hesc]
      simp only [List.cons_append, List.nil_append]
      rw [unescapeChars_plain _ _ h2, ih]

/-- The escaping used on the wire is lossless. -/
theorem jsonUnescape_jsonEscape (s : String) :
    jsonUnescape (jsonEscape s) = s := by
  show String.mk (unescapeChars (escapeChars s.data)) = s
  rw [unescape_escape_chars]

/-- `JSON.stringify` of a string value. -/
def encodeJsonString (s : String) : String :=
  "\"" ++ jsonEscape s ++ "\""

/-- `JSON.stringify` of one `{ question, answer }` pair (keys in the
insertion order used by `buildChatHistory`). -/
def encodeQA (p : QA) : String :=
  "\x7b\"question\":" ++ encodeJsonString p.question
    ++ ",\"answer\":" ++ encodeJsonString p.answer ++ "\x7d"

/-- `JSON.stringify(chatHistory)` — the `chatString` of `streamChat`
(you-client.ts). -/
def encodeQAList (l : List QA) : String :=
  "[" ++ String.intercalate "," (l.map encodeQA) ++ "]"

/-- The request body of `streamChat` (you-client.ts):
`JSON.stringify({ query, chat: chatString })` where `chatString` is
itself `JSON.stringify(chatHistory)` — the double encoding. -/
def streamChatRequestBody (query : String) (chatHistory : List QA) : String :=
  let chatString := encodeQAList chatHistory
  "\x7b\"query\":" ++ encodeJsonString query
    ++ ",\"chat\":" ++ encodeJsonString chatString ++ "\x7d"

/-- C9: the Remote Completion Client serializes the turn-pair history
twice for the wire — the request body is the JSON object whose `chat`
member is a JSON *string* holding the JSON encoding of the chatHistory
array, that embedded string is losslessly recoverable (so it really is a
JSON string inside a JSON string), the double encoding happens in the
client adapter applied to the History Reconstructor's structured
`List QA` output, and the empty history produces exactly the documented
`{"query":…,"chat":"[]"}` body. -/
theorem streamChat_double_encodes_history (query : String) (h : List QA)
    (msgs : List ChatMsg) :
    streamChatRequestBody query h
      = "\x7b\"query\":" ++ encodeJsonString query ++ ",\"chat\":"
          ++ encodeJsonString (encodeQAList h) ++ "\x7d" ∧
    jsonUnescape (jsonEscape (encodeQAList h)) = encodeQAList h ∧
    streamChatRequestBody query (buildChatHistory msgs)
      = "\x7b\"query\":" ++ encodeJsonString query ++ ",\"chat\":"
          ++ encodeJsonString (encodeQAList (buildChatHistory msgs)) ++ "\x7d" ∧
    streamChatRequestBody "Hi" []
      = "\x7b\"query\":\"Hi\",\"chat\":\"[]\"\x7d" ∧
    encodeQAList [⟨"q1", "a1"⟩]
      = "[\x7b\"question\":\"q1\",\"answer\":\"a1\"\x7d]" ∧
    encodeJsonString (encodeQAList [⟨"q1", "a1"⟩])
      = "\"[\x7b\\\"question\\\":\\\"q1\\\",\\\"answer\\\":\\\"a1\\\"\x7d]\"" := by
  refine ⟨rfl, jsonUnescape_jsonEscape _, rfl, ?_, ?_, ?_⟩
  · decide
  · decide
  · decide
